import Mathlib

set_option autoImplicit false

/-!
Shallow embedding of the StoryVerse style-analysis engine
(`src/local-mcp/index.js`) and verification of its specification claims.

Texts are modelled as `List Char`; JavaScript numbers are modelled as exact
rationals extended with `NaN` and the two infinities (`JSNum`) wherever the
source can produce a non-finite value, and as plain rationals where it
provably cannot.
-/

namespace StoryVerse

/-- Model of a JavaScript number: an exact rational, `NaN`, or an infinity.
Division is the only operation in the source that can leave the rationals. -/
inductive JSNum where
  | nan : JSNum
  | posInf : JSNum
  | negInf : JSNum
  | num : ℚ → JSNum
deriving DecidableEq, Repr

/-- JavaScript division `a / b` on finite operands: `0/0` is `NaN`,
`a/0` for `a ≠ 0` is a signed infinity, otherwise exact rational division. -/
def jsDiv (a b : ℚ) : JSNum :=
  if b = 0 then
    if a = 0 then JSNum.nan
    else if 0 < a then JSNum.posInf
    else JSNum.negInf
  else JSNum.num (a / b)

/-- JavaScript `x || 0`: `NaN` and `0` are falsy and give `0`; every other
number (including the infinities) is truthy and passes through. -/
def orZero (x : JSNum) : JSNum :=
  match x with
  | JSNum.nan => JSNum.num 0
  | JSNum.num q => JSNum.num q
  | x => x

/-- JavaScript division of an already-computed number by a finite constant,
used for `avgLength / 25`. -/
def jsDivConst (x : JSNum) (c : ℚ) : JSNum :=
  match x with
  | JSNum.num q => jsDiv q c
  | JSNum.nan => JSNum.nan
  | JSNum.posInf => if 0 < c then JSNum.posInf else if c < 0 then JSNum.negInf else JSNum.nan
  | JSNum.negInf => if 0 < c then JSNum.negInf else if c < 0 then JSNum.posInf else JSNum.nan

/-- JavaScript `Math.min` on two numbers: `NaN` absorbs, infinities compare
as expected, finite values take the rational minimum. -/
def jsMin (a b : JSNum) : JSNum :=
  match a, b with
  | JSNum.nan, _ => JSNum.nan
  | _, JSNum.nan => JSNum.nan
  | JSNum.num x, JSNum.num y => JSNum.num (if x ≤ y then x else y)
  | JSNum.posInf, y => y
  | x, JSNum.posInf => x
  | JSNum.negInf, _ => JSNum.negInf
  | _, JSNum.negInf => JSNum.negInf

/-- JavaScript `x > c` for a finite constant `c`: false on `NaN`. -/
def jsGt (x : JSNum) (c : ℚ) : Bool :=
  match x with
  | JSNum.num q => decide (c < q)
  | JSNum.posInf => true
  | _ => false

/-- Whitespace characters recognised by the model of `\s` /
`String.prototype.trim` (the source only ever meets ASCII whitespace). -/
def isWsChar (c : Char) : Bool :=
  c = ' ' || c = '\t' || c = '\n' || c = '\r'

/-- Sentence separators of the split regex `[.!?]+`. -/
def isSepChar (c : Char) : Bool :=
  c = '.' || c = '!' || c = '?'

/-- Word-constituent characters of the regex class `\w` = `[A-Za-z0-9_]`. -/
def isWordChar (c : Char) : Bool :=
  c.isAlpha || c.isDigit || c = '_'

/-- Splits a character list at every character satisfying `p`, dropping the
separators and keeping (possibly empty) chunks, exactly as
`String.prototype.split` with a single-character-class regex does. -/
def splitOnPred (p : Char → Bool) : List Char → List (List Char)
  | [] => [[]]
  | c :: rest =>
    let r := splitOnPred p rest
    if p c then [] :: r
    else
      match r with
      | [] => [[c]]
      | w :: ws => (c :: w) :: ws

/-- Model of `text.split(/[.!?]+/).filter(s => s.trim().length > 0)`: splitting on a
*run* of separators and then discarding whitespace-only fragments yields the
same list as splitting on each single separator and filtering, because the
extra fragments produced between adjacent separators are empty. -/
def sentencesOf (text : List Char) : List (List Char) :=
  (splitOnPred isSepChar text).filter (fun f => f.any (fun c => !isWsChar c))

/-- Model of `fragment.split(/\s+/).filter(Boolean)`: the non-empty whitespace-free
chunks of a fragment. -/
def wordsOf (frag : List Char) : List (List Char) :=
  (splitOnPred isWsChar frag).filter (fun w => !w.isEmpty)

/-- Output record of `calculateSentenceMetrics`. -/
structure SentenceMetrics where
  avg_length : JSNum
  dist_short : JSNum
  dist_medium : JSNum
  dist_long : JSNum
  complexity_score : JSNum
  question_frequency : JSNum
  fragment_frequency : JSNum
deriving DecidableEq, Repr

/-- Embedding of `calculateSentenceMetrics` (src/local-mcp/index.js:190-211).
Every division is the JavaScript float division followed by the `|| 0`
guard; `complexity_score` is `Math.min(1, avgLength / 25)` applied to the
already-guarded average. -/
def calculateSentenceMetrics (text : List Char) : SentenceMetrics :=
  let ss := sentencesOf text
  let lens := ss.map (fun s => (wordsOf s).length)
  let n : ℚ := (ss.length : ℚ)
  let avgLength := orZero (jsDiv ((lens.sum : ℕ) : ℚ) n)
  let shortN := (lens.filter (fun l => decide (l ≤ 10))).length
  let mediumN := (lens.filter (fun l => decide (10 < l ∧ l ≤ 20))).length
  let longN := (lens.filter (fun l => decide (20 < l))).length
  let qN := (text.filter (fun c => c = '?')).length
  let fragN := (ss.filter (fun s => decide ((wordsOf s).length < 5))).length
  { avg_length := avgLength
    dist_short := orZero (jsDiv (shortN : ℚ) n)
    dist_medium := orZero (jsDiv (mediumN : ℚ) n)
    dist_long := orZero (jsDiv (longN : ℚ) n)
    complexity_score := jsMin (JSNum.num 1) (jsDivConst avgLength 25)
    question_frequency := orZero (jsDiv (qN : ℚ) n)
    fragment_frequency := orZero (jsDiv (fragN : ℚ) n) }

/-- Index of the last `'.'` in the list (`-1` when there is none), tracking
the running answer like `String.prototype.lastIndexOf` does. -/
def lastDotAux : List Char → ℕ → ℤ → ℤ
  | [], _, acc => acc
  | c :: rest, i, acc => lastDotAux rest (i + 1) (if c = '.' then (i : ℤ) else acc)

/-- Model of `excerpt.lastIndexOf('.')`. -/
def lastIndexOfDot (l : List Char) : ℤ :=
  lastDotAux l 0 (-1)

/-- Embedding of `createExcerpt` (src/local-mcp/index.js:307-315): take the
first 200 characters; if the last period of that slice sits at an index
greater than 100, cut just after it, otherwise append an ellipsis. -/
def createExcerpt (text : List Char) : List Char :=
  let excerpt := text.take 200
  let lastPeriod := lastIndexOfDot excerpt
  if 100 < lastPeriod then excerpt.take (lastPeriod.toNat + 1)
  else excerpt ++ "...".toList

/-- Maximal runs of word characters of a text. A case-insensitive regex
count `(text.match(/\b(w1|w2|...)\b/gi) || []).length` where every
alternative `wi` is a whole word over `\w` equals the number of these runs
whose lower-casing is one of the alternatives, because `\b` on both sides
forces a match to cover a maximal run. -/
def wordTokens (text : List Char) : List (List Char) :=
  (splitOnPred (fun c => !isWordChar c) text).filter (fun w => !w.isEmpty)

/-- Case-insensitive whole-word count of the words `ws` in `text`. -/
def countWholeWords (ws : List (List Char)) (text : List Char) : ℕ :=
  ((wordTokens text).filter (fun w => decide (w.map Char.toLower ∈ ws))).length

/-- First-person pronoun alternatives of the POV regex. -/
def firstPersonWords : List (List Char) :=
  ["i", "me", "my", "mine", "we", "us", "our", "ours"].map String.toList

/-- Third-person pronoun alternatives of the POV regex. -/
def thirdPersonWords : List (List Char) :=
  ["he", "him", "his", "she", "her", "hers", "they", "them", "their", "theirs"].map String.toList

/-- Present-tense indicator words. -/
def presentTenseWords : List (List Char) :=
  ["is", "are", "am", "being", "do", "does", "has", "have"].map String.toList

/-- Past-tense indicator words. -/
def pastTenseWords : List (List Char) :=
  ["was", "were", "had", "did"].map String.toList

/-- Output record of `analyzeNarrativeCharacteristics`; the last three
fields are placeholder constants in the source. -/
structure NarrativeCharacteristics where
  pov : String
  tense : String
  description_density : ℚ
  action_to_reflection_ratio : ℚ
  show_vs_tell_balance : ℚ
deriving DecidableEq, Repr

/-- Embedding of `analyzeNarrativeCharacteristics`
(src/local-mcp/index.js:232-262). -/
def analyzeNarrativeCharacteristics (text : List Char) : NarrativeCharacteristics :=
  let firstPersonIndicators := countWholeWords firstPersonWords text
  let thirdPersonIndicators := countWholeWords thirdPersonWords text
  let pov :=
    if thirdPersonIndicators * 2 < firstPersonIndicators then "first_person"
    else if firstPersonIndicators < thirdPersonIndicators then "third_person"
    else "unknown"
  let presentTenseIndicators := countWholeWords presentTenseWords text
  let pastTenseIndicators := countWholeWords pastTenseWords text
  let tense :=
    if (pastTenseIndicators : ℚ) * 1.5 < (presentTenseIndicators : ℚ) then "present"
    else if presentTenseIndicators < pastTenseIndicators then "past"
    else "unknown"
  { pov := pov
    tense := tense
    description_density := 0.4
    action_to_reflection_ratio := 1.5
    show_vs_tell_balance := 0.65 }

/-- Positive lexicon of `analyzeTone`. -/
def positiveWords : List (List Char) :=
  ["happy", "joy", "love", "excellent", "good", "great"].map String.toList

/-- Negative lexicon of `analyzeTone`. -/
def negativeWords : List (List Char) :=
  ["sad", "angry", "hate", "terrible", "bad", "awful"].map String.toList

/-- Formal lexicon of `analyzeTone`. -/
def formalWords : List (List Char) :=
  ["therefore", "furthermore", "consequently", "nevertheless"].map String.toList

/-- Model of `text.toLowerCase().split(/\s+/).filter(Boolean)`: the whitespace-split
tokens of the lower-cased text. -/
def jsWords (text : List Char) : List (List Char) :=
  (splitOnPred isWsChar (text.map Char.toLower)).filter (fun w => !w.isEmpty)

/-- Output record of `analyzeTone`; humor and sarcasm are placeholder
constants in the source. -/
structure ToneAttributes where
  emotional_tone : List String
  formality_level : String
  humor_level : ℚ
  sarcasm_level : ℚ
deriving DecidableEq, Repr

/-- Embedding of `analyzeTone` (src/local-mcp/index.js:275-304). The
formality test divides by `words.length` with JavaScript semantics: for an
empty token list the quotient is `NaN`, which compares false, giving
"casual". -/
def analyzeTone (text : List Char) : ToneAttributes :=
  let words := jsWords text
  let positiveCount := (words.filter (fun w => decide (w ∈ positiveWords))).length
  let negativeCount := (words.filter (fun w => decide (w ∈ negativeWords))).length
  let formalCount := (words.filter (fun w => decide (w ∈ formalWords))).length
  let emotionalTone :=
    if negativeCount * 2 < positiveCount then ["optimistic"]
    else if positiveCount * 2 < negativeCount then ["pessimistic"]
    else ["neutral"]
  let formality :=
    if jsGt (jsDiv (formalCount : ℚ) (words.length : ℚ)) 0.01 then "formal" else "casual"
  { emotional_tone := emotionalTone
    formality_level := formality
    humor_level := 0.2
    sarcasm_level := 0.1 }

/-! ## Aggregation (`combineMetrics`)

Stored style-analysis rows are arbitrary JSON records, so every field the
aggregator reads through optional chaining is modelled as an `Option`. -/

/-- Stored `sentence_metrics.length_distribution` sub-record. -/
structure StoredDistribution where
  short : Option ℚ
  medium : Option ℚ
  long : Option ℚ
deriving DecidableEq, Repr

/-- Stored `sentence_metrics` sub-record of an analysis row. -/
structure StoredSentenceMetrics where
  avg_length : Option ℚ
  length_distribution : Option StoredDistribution
  complexity_score : Option ℚ
  question_frequency : Option ℚ
deriving DecidableEq, Repr

/-- Stored `vocabulary_metrics` sub-record of an analysis row. -/
structure StoredVocabularyMetrics where
  lexical_diversity : Option ℚ
  formality_score : Option ℚ
deriving DecidableEq, Repr

/-- Stored `narrative_characteristics` sub-record of an analysis row. -/
structure StoredNarrative where
  pov : Option String
  tense : Option String
  action_to_reflection_ratio : Option ℚ
deriving DecidableEq, Repr

/-- Stored `tone_attributes` sub-record of an analysis row. -/
structure StoredTone where
  emotional_tone : Option (List String)
  formality_level : Option String
deriving DecidableEq, Repr

/-- Stored `stylistic_devices` sub-record of an analysis row. -/
structure StoredDevices where
  metaphor_frequency : Option ℚ
  simile_frequency : Option ℚ
  alliteration_frequency : Option ℚ
  repetition_patterns : Option ℚ
deriving DecidableEq, Repr

/-- A stored style-analysis row (a `SampleAnalysisBundle`), the element type
of the sequence handed to `combineMetrics`. -/
structure Analysis where
  sentence_metrics : Option StoredSentenceMetrics
  vocabulary_metrics : Option StoredVocabularyMetrics
  narrative_characteristics : Option StoredNarrative
  tone_attributes : Option StoredTone
  stylistic_devices : Option StoredDevices
  comparable_authors : Option (List String)
deriving DecidableEq, Repr

/-- JavaScript `v || d` for an optionally present numeric field: a missing
field and the falsy value `0` both yield the default `d`. -/
def jsOr (o : Option ℚ) (d : ℚ) : ℚ :=
  match o with
  | none => d
  | some q => if q = 0 then d else q

/-- Accessor `a.sentence_metrics?.avg_length || 0`. -/
def getAvgLength (a : Analysis) : ℚ :=
  jsOr (a.sentence_metrics.bind (fun m => m.avg_length)) 0

/-- Contribution of a row to `shortTotal`: `0` unless
`a.sentence_metrics?.length_distribution` is present. -/
def getDistShort (a : Analysis) : ℚ :=
  match a.sentence_metrics.bind (fun m => m.length_distribution) with
  | none => 0
  | some d => jsOr d.short 0

/-- Contribution of a row to `mediumTotal`. -/
def getDistMedium (a : Analysis) : ℚ :=
  match a.sentence_metrics.bind (fun m => m.length_distribution) with
  | none => 0
  | some d => jsOr d.medium 0

/-- Contribution of a row to `longTotal`. -/
def getDistLong (a : Analysis) : ℚ :=
  match a.sentence_metrics.bind (fun m => m.length_distribution) with
  | none => 0
  | some d => jsOr d.long 0

/-- Accessor `a.sentence_metrics?.complexity_score || 0`. -/
def getComplexity (a : Analysis) : ℚ :=
  jsOr (a.sentence_metrics.bind (fun m => m.complexity_score)) 0

/-- Accessor `a.sentence_metrics?.question_frequency || 0`. -/
def getQuestionFrequency (a : Analysis) : ℚ :=
  jsOr (a.sentence_metrics.bind (fun m => m.question_frequency)) 0

/-- Accessor `a.vocabulary_metrics?.lexical_diversity || 0`. -/
def getLexicalDiversity (a : Analysis) : ℚ :=
  jsOr (a.vocabulary_metrics.bind (fun m => m.lexical_diversity)) 0

/-- Accessor `a.vocabulary_metrics?.formality_score || 0`. -/
def getFormalityScore (a : Analysis) : ℚ :=
  jsOr (a.vocabulary_metrics.bind (fun m => m.formality_score)) 0

/-- Accessor `a.narrative_characteristics?.action_to_reflection_ratio || 1` — the one
accessor whose default is `1`, not `0`. -/
def getActionRatio (a : Analysis) : ℚ :=
  jsOr (a.narrative_characteristics.bind (fun m => m.action_to_reflection_ratio)) 1

/-- Accessor `a.stylistic_devices?.metaphor_frequency || 0`. -/
def getMetaphor (a : Analysis) : ℚ :=
  jsOr (a.stylistic_devices.bind (fun m => m.metaphor_frequency)) 0

/-- Accessor `a.stylistic_devices?.simile_frequency || 0`. -/
def getSimile (a : Analysis) : ℚ :=
  jsOr (a.stylistic_devices.bind (fun m => m.simile_frequency)) 0

/-- Accessor `a.stylistic_devices?.alliteration_frequency || 0`. -/
def getAlliteration (a : Analysis) : ℚ :=
  jsOr (a.stylistic_devices.bind (fun m => m.alliteration_frequency)) 0

/-- Accessor `a.stylistic_devices?.repetition_patterns || 0`. -/
def getRepetition (a : Analysis) : ℚ :=
  jsOr (a.stylistic_devices.bind (fun m => m.repetition_patterns)) 0

/-- Arithmetic mean of `f` over the rows, as `combineMetrics` computes it:
a running `reduce` sum divided by `analyses.length`. -/
def meanOver (f : Analysis → ℚ) (as : List Analysis) : ℚ :=
  ((as.map f).sum) / (as.length : ℚ)

/-- One step of the frequency-table build `counts[k] = (counts[k] || 0) + 1`.
Keys live in an association list ordered like the insertion-ordered string
keys of a JavaScript object. -/
def insertTally (counts : List (String × ℕ)) (k : String) : List (String × ℕ) :=
  if counts.any (fun p => p.1 = k) then
    counts.map (fun p => if p.1 = k then (p.1, p.2 + 1) else p)
  else counts ++ [(k, 1)]

/-- Frequency table of a value sequence, in first-encounter key order. -/
def tallyList (vs : List String) : List (String × ℕ) :=
  vs.foldl insertTally []

/-- The categorical values a field getter supplies across the rows, in
sequence order; a missing field and the falsy empty string are skipped,
mirroring `if (pov) { ... }`. -/
def suppliedValues (get : Analysis → Option String) (as : List Analysis) : List String :=
  as.filterMap (fun a =>
    match get a with
    | some v => if v = "" then none else some v
    | none => none)

/-- The `Object.keys(...).forEach` maximum scan: keeps the current best
entry unless a later entry is *strictly* more frequent. -/
def pickBest (b : String × ℕ) : List (String × ℕ) → String × ℕ
  | [] => b
  | p :: rest => pickBest (if b.2 < p.2 then p else b) rest

/-- Dominant categorical value: the first-encountered most frequent value,
or the default when the table is empty. -/
def dominantOf (d : String) (counts : List (String × ℕ)) : String :=
  (pickBest (d, 0) counts).1

/-- JavaScript `Set`-style first-seen de-duplicating insertion. -/
def addNew (acc : List String) (t : String) : List String :=
  if t ∈ acc then acc else acc ++ [t]

/-- Union of the rows' `emotional_tone` arrays in first-seen order
(`new Set()` filled by `forEach`, read back with `Array.from`). -/
def collectTones (as : List Analysis) : List String :=
  as.foldl (fun acc a =>
    match a.tone_attributes.bind (fun t => t.emotional_tone) with
    | some ts => ts.foldl addNew acc
    | none => acc) []

/-- Union of the rows' `comparable_authors` arrays in first-seen order. -/
def collectAuthors (as : List Analysis) : List String :=
  as.foldl (fun acc a =>
    match a.comparable_authors with
    | some ts => ts.foldl addNew acc
    | none => acc) []

/-- Composite `sentence` sub-record of the aggregated style parameters. -/
structure CompositeSentence where
  avg_length : ℚ
  short : ℚ
  medium : ℚ
  long : ℚ
  complexity : ℚ
  questions : Bool
deriving DecidableEq, Repr

/-- Composite `vocabulary` sub-record. -/
structure CompositeVocabulary where
  diversity : ℚ
  formality : String
deriving DecidableEq, Repr

/-- Composite `narrative` sub-record. -/
structure CompositeNarrative where
  pov : String
  tense : String
  description_heavy : Bool
  action_ratio : ℚ
deriving DecidableEq, Repr

/-- Composite `tone` sub-record. -/
structure CompositeTone where
  emotional : List String
  formality : String
  humor : String
deriving DecidableEq, Repr

/-- Composite `devices` sub-record. -/
structure CompositeDevices where
  metaphors : Bool
  similes : Bool
  alliteration : Bool
  repetition : Bool
deriving DecidableEq, Repr

/-- The consolidated style parameters built by `combineMetrics`. -/
structure Composite where
  sentence : CompositeSentence
  vocabulary : CompositeVocabulary
  narrative : CompositeNarrative
  tone : CompositeTone
  devices : CompositeDevices
  comparable_authors : List String
deriving DecidableEq, Repr

/-- Getter for the stored narrative POV. -/
def getPov (a : Analysis) : Option String :=
  a.narrative_characteristics.bind (fun m => m.pov)

/-- Getter for the stored narrative tense. -/
def getTense (a : Analysis) : Option String :=
  a.narrative_characteristics.bind (fun m => m.tense)

/-- Getter for the stored tone formality level. -/
def getFormalityLevel (a : Analysis) : Option String :=
  a.tone_attributes.bind (fun m => m.formality_level)

/-- Body of `combineMetrics` after the emptiness guard
(src/local-mcp/index.js:643-775). -/
def combineCore (as : List Analysis) : Composite :=
  let formalityScore := meanOver getFormalityScore as
  let actionRatio := meanOver getActionRatio as
  { sentence :=
      { avg_length := meanOver getAvgLength as
        short := meanOver getDistShort as
        medium := meanOver getDistMedium as
        long := meanOver getDistLong as
        complexity := meanOver getComplexity as
        questions := decide (0.05 < meanOver getQuestionFrequency as) }
    vocabulary :=
      { diversity := meanOver getLexicalDiversity as
        formality :=
          if 0.6 < formalityScore then "formal"
          else if 0.4 < formalityScore then "neutral"
          else "casual" }
    narrative :=
      { pov := dominantOf "unknown" (tallyList (suppliedValues getPov as))
        tense := dominantOf "unknown" (tallyList (suppliedValues getTense as))
        description_heavy := decide (actionRatio < 1)
        action_ratio := actionRatio }
    tone :=
      { emotional := collectTones as
        formality := dominantOf "neutral" (tallyList (suppliedValues getFormalityLevel as))
        humor := "low" }
    devices :=
      { metaphors := decide (0.01 < meanOver getMetaphor as)
        similes := decide (0.01 < meanOver getSimile as)
        alliteration := decide (0.01 < meanOver getAlliteration as)
        repetition := decide (0.01 < meanOver getRepetition as) }
    comparable_authors := collectAuthors as }

/-- Embedding of `combineMetrics` (src/local-mcp/index.js:637-776): `null`
(here `none`) on an empty sequence, otherwise the consolidated record. -/
def combineMetrics (as : List Analysis) : Option Composite :=
  if as.isEmpty then none else some (combineCore as)

/-- Aggregation step of `createStyleProfile`
(src/local-mcp/index.js:818-823): the caller rejects an empty analysis
sequence with a descriptive error before `combineMetrics` is invoked. -/
def aggregateStyleAnalyses (analyses : List Analysis) : Except String (Option Composite) :=
  if analyses.length = 0 then
    Except.error "No style analyses found for the provided samples. Please analyze the samples first."
  else Except.ok (combineMetrics analyses)

/-- A row with every optional field absent. -/
def emptyAnalysis : Analysis :=
  { sentence_metrics := none
    vocabulary_metrics := none
    narrative_characteristics := none
    tone_attributes := none
    stylistic_devices := none
    comparable_authors := none }

/-- A row with explicit values for every scalar field the aggregator
averages, and fixed categorical values. -/
def mkAnalysis (avg ds dm dl compl qf ld fs ar mf sf af rp : ℚ)
    (pov tense formality : String) : Analysis :=
  { sentence_metrics := some
      { avg_length := some avg
        length_distribution := some { short := some ds, medium := some dm, long := some dl }
        complexity_score := some compl
        question_frequency := some qf }
    vocabulary_metrics := some { lexical_diversity := some ld, formality_score := some fs }
    narrative_characteristics := some
      { pov := some pov, tense := some tense, action_to_reflection_ratio := some ar }
    tone_attributes := some { emotional_tone := some [], formality_level := some formality }
    stylistic_devices := some
      { metaphor_frequency := some mf, simile_frequency := some sf
        alliteration_frequency := some af, repetition_patterns := some rp }
    comparable_authors := some [] }

/-! ## Style guidance formatting (`formatStyleGuidance`)

The formatter receives a stored `style_parameters` record spread together
with the profile's comparable authors and user comments; every top-level
sub-object can be absent and is modelled as an `Option`. Fields the source
reads without a guard are modelled as plain values. -/

/-- Record `length_distribution` as the formatter reads it. -/
structure FmtDistribution where
  short : ℚ
  medium : ℚ
  long : ℚ
deriving DecidableEq, Repr

/-- Record `styleParameters.sentence` as the formatter reads it. -/
structure FmtSentence where
  avg_length : ℚ
  length_distribution : Option FmtDistribution
  complexity : ℚ
  questions : Bool
deriving DecidableEq, Repr

/-- Record `styleParameters.vocabulary` as the formatter reads it. -/
structure FmtVocabulary where
  diversity : ℚ
  formality : String
  avoid : Option (List String)
  prefer : Option (List String)
deriving DecidableEq, Repr

/-- Record `styleParameters.narrative` as the formatter reads it. -/
structure FmtNarrative where
  pov : String
  tense : String
  description_heavy : Bool
deriving DecidableEq, Repr

/-- Record `styleParameters.tone` as the formatter reads it. -/
structure FmtTone where
  emotional : Option (List String)
  formality : Option String
  humor : Option String
deriving DecidableEq, Repr

/-- Record `styleParameters.devices` as the formatter reads it. -/
structure FmtDevices where
  metaphors : Bool
  similes : Bool
  alliteration : Bool
  repetition : Bool
  avoid : Option (List String)
deriving DecidableEq, Repr

/-- Input record of `formatStyleGuidance`. -/
structure StyleParameters where
  sentence : Option FmtSentence
  vocabulary : Option FmtVocabulary
  narrative : Option FmtNarrative
  tone : Option FmtTone
  devices : Option FmtDevices
  comparable_authors : Option (List String)
  user_comments : Option String
deriving DecidableEq, Repr

/-- JavaScript `Math.round`: round half toward positive infinity. -/
def jsRound (q : ℚ) : ℤ :=
  ⌊q + 1 / 2⌋

/-- Truthiness of an optionally present string field: absent and the empty
string are falsy. -/
def strTruthy (o : Option String) : Bool :=
  match o with
  | none => false
  | some s => !s.isEmpty

/-- Rendering of the composite POV in the Narrative Approach section
(src/local-mcp/index.js:381): anything other than `first_person` or
`second_person` is shown as "Third person". -/
def povLabel (s : String) : String :=
  if s = "first_person" then "First person"
  else if s = "second_person" then "Second person"
  else "Third person"

/-- Rendering of the composite tense (src/local-mcp/index.js:382): anything
other than `present` is shown as "Past tense". -/
def tenseLabel (s : String) : String :=
  if s = "present" then "Present tense" else "Past tense"

/-- Sentence Structure section (src/local-mcp/index.js:350-361). -/
def sectionSentence (p : StyleParameters) : String :=
  match p.sentence with
  | none => ""
  | some s =>
    let sentenceLength :=
      if s.avg_length < 12 then "short"
      else if s.avg_length < 20 then "moderate" else "long"
    let distLine :=
      match s.length_distribution with
      | none => ""
      | some d =>
        "- Sentence variety: " ++ toString (jsRound (d.short * 100)) ++ "% short, "
          ++ toString (jsRound (d.medium * 100)) ++ "% medium, "
          ++ toString (jsRound (d.long * 100)) ++ "% long\n"
    "## Sentence Structure\n"
      ++ "- Use predominantly " ++ sentenceLength ++ " sentences (average "
      ++ toString (jsRound s.avg_length) ++ " words per sentence)\n"
      ++ distLine
      ++ "- Complexity: "
      ++ (if s.complexity < 0.4 then "simple and direct"
          else if s.complexity < 0.7 then "moderately complex"
          else "complex with multiple clauses") ++ "\n"
      ++ "- Question frequency: "
      ++ (if s.questions then "Include occasional questions" else "Rarely use questions")
      ++ "\n\n"

/-- Vocabulary section (src/local-mcp/index.js:364-376). -/
def sectionVocabulary (p : StyleParameters) : String :=
  match p.vocabulary with
  | none => ""
  | some v =>
    "## Vocabulary\n"
      ++ "- Lexical diversity: "
      ++ (if v.diversity < 0.4 then "Limited - use repetition and simple words"
          else if v.diversity < 0.6 then
            "Moderate - mix familiar words with occasional distinctive ones"
          else "High - use varied, precise vocabulary") ++ "\n"
      ++ "- Formality: "
      ++ (if v.formality = "formal" then "Formal academic tone"
          else if v.formality = "neutral" then "Balanced, professional tone"
          else "Conversational, casual tone") ++ "\n"
      ++ (match v.avoid with
          | none => ""
          | some ws => "- Avoid these terms: " ++ String.intercalate ", " ws ++ "\n")
      ++ (match v.prefer with
          | none => ""
          | some ws => "- Preferred terms: " ++ String.intercalate ", " ws ++ "\n")
      ++ "\n"

/-- Narrative Approach section (src/local-mcp/index.js:379-384). -/
def sectionNarrative (p : StyleParameters) : String :=
  match p.narrative with
  | none => ""
  | some nv =>
    "## Narrative Approach\n"
      ++ "- Point of view: " ++ povLabel nv.pov ++ "\n"
      ++ "- Tense: " ++ tenseLabel nv.tense ++ "\n"
      ++ "- Description vs. action balance: "
      ++ (if nv.description_heavy then "Favor rich description"
          else "Favor action and plot movement")
      ++ "\n\n"

/-- Tone section (src/local-mcp/index.js:387-398). -/
def sectionTone (p : StyleParameters) : String :=
  match p.tone with
  | none => ""
  | some t =>
    "## Tone\n"
      ++ (match t.emotional with
          | none => ""
          | some ts =>
            if ts.isEmpty then ""
            else "- Emotional tone: " ++ String.intercalate ", " ts ++ "\n")
      ++ (if strTruthy t.formality then
            "- Formality: " ++ t.formality.getD "" ++ "\n"
          else "")
      ++ (if strTruthy t.humor then
            "- Humor level: "
              ++ (if t.humor.getD "" = "high" then "Include humor and wit"
                  else if t.humor.getD "" = "medium" then "Occasional light humor"
                  else "Serious, minimal humor") ++ "\n\n"
          else "")

/-- Stylistic Devices section (src/local-mcp/index.js:401-416). -/
def sectionDevices (p : StyleParameters) : String :=
  match p.devices with
  | none => ""
  | some d =>
    let devices :=
      (if d.metaphors then ["metaphors"] else [])
        ++ (if d.similes then ["similes"] else [])
        ++ (if d.alliteration then ["alliteration"] else [])
        ++ (if d.repetition then ["repetition"] else [])
    "## Stylistic Devices\n"
      ++ (if devices.isEmpty then ""
          else "- Use these devices: " ++ String.intercalate ", " devices ++ "\n")
      ++ (match d.avoid with
          | none => ""
          | some ws => "- Avoid these devices: " ++ String.intercalate ", " ws ++ "\n")
      ++ "\n"

/-- Similar Authors section (src/local-mcp/index.js:419-422). -/
def sectionAuthors (p : StyleParameters) : String :=
  match p.comparable_authors with
  | none => ""
  | some authors =>
    if authors.isEmpty then ""
    else "## Similar Authors\n- Emulate the style of: "
      ++ String.intercalate ", " authors ++ "\n\n"

/-- Additional Notes section (src/local-mcp/index.js:425-428). -/
def sectionNotes (p : StyleParameters) : String :=
  if strTruthy p.user_comments then
    "## Additional Notes\n" ++ p.user_comments.getD "" ++ "\n\n"
  else ""

/-- Embedding of `formatStyleGuidance` (src/local-mcp/index.js:346-431):
the fixed header followed by the conditionally emitted sections in source
order. -/
def formatStyleGuidance (p : StyleParameters) : String :=
  "# Style Guidance\n\n"
    ++ sectionSentence p ++ sectionVocabulary p ++ sectionNarrative p
    ++ sectionTone p ++ sectionDevices p ++ sectionAuthors p ++ sectionNotes p

/-- The all-absent input, `formatStyleGuidance({})`. -/
def emptyStyleParameters : StyleParameters :=
  { sentence := none, vocabulary := none, narrative := none, tone := none
    devices := none, comparable_authors := none, user_comments := none }

/-! ## Specification-side vocabulary for the claims -/

/-- Index of the first occurrence of `v` in a list (list length when
absent); used to express "first encountered in sequence order". -/
def idxOf (v : String) : List String → ℕ
  | [] => 0
  | w :: rest => if w = v then 0 else idxOf v rest + 1

/-- Mode specification, from the spec's words: `r` is the value occurring
most frequently among the supplied values `vs`, ties broken in favour of
the value first encountered in sequence order, and `r` is the default when
no value is supplied. -/
def modeSpec (dflt : String) (vs : List String) (r : String) : Prop :=
  (vs = [] ∧ r = dflt) ∨
    (r ∈ vs ∧ (∀ w ∈ vs, vs.count w ≤ vs.count r) ∧
      ∀ w ∈ vs, vs.count w = vs.count r → idxOf r vs ≤ idxOf w vs)

/-- The end-to-end example text of the spec. -/
def gardenText : List Char :=
  "I love my garden. It is beautiful and I am happy every day.".toList

/-- Three analysis rows with POV first_person, first_person, third_person,
the 2-vs-1 majority example of the spec. -/
def majorityExample : List Analysis :=
  [mkAnalysis 10 (1/2) (1/4) (1/4) (2/5) 0 (1/2) (13/20) (3/2) 0 0 0 0
    "first_person" "past" "casual",
   mkAnalysis 20 0 (1/2) (1/2) (4/5) (1/10) (3/10) (1/2) (1/2) 0 0 0 0
    "first_person" "present" "casual",
   mkAnalysis 30 0 0 1 1 0 (1/2) (1/2) 1 0 0 0 0
    "third_person" "present" "formal"]

/-! ## Claim C1 -/

/-- Claim C1 (code bug): the claim demands that every numeric field of the
sentence-metrics bundle be finite and that every ratio field be exactly `0`
when the text has zero sentences. The code violates this: the input `"?"`
has zero sentences, yet its `question_frequency` is `1 / 0 = Infinity`,
which is truthy and therefore passes the `|| 0` guard unchanged. -/
theorem c1_question_frequency_unguarded :
    sentencesOf "?".toList = [] ∧
    (calculateSentenceMetrics "?".toList).question_frequency = JSNum.posInf := by
  constructor
  · with_unfolding_all decide
  · with_unfolding_all decide

/-! ## Claim C2 -/

/-- Claim C2: aggregation over an empty sequence of analysis bundles is
rejected with a descriptive error by the aggregation path of
`createStyleProfile`, and `combineMetrics` itself never produces a
composite record for the empty input. -/
theorem c2_empty_aggregation_rejected :
    aggregateStyleAnalyses [] =
      Except.error
        "No style analyses found for the provided samples. Please analyze the samples first." ∧
    combineMetrics [] = none := by
  exact ⟨rfl, rfl⟩

/-! ## Claim C5 -/

theorem lastDotAux_no_dot (l : List Char) (h : '.' ∉ l) :
    ∀ (i : ℕ) (acc : ℤ), lastDotAux l i acc = acc := by
  induction l with
  | nil => intro i acc; rfl
  | cons c rest ih =>
    intro i acc
    have hc : ¬ c = '.' := fun e => h (e ▸ List.mem_cons_self c rest)
    have hr : '.' ∉ rest := fun e => h (List.mem_cons_of_mem c e)
    simp only [lastDotAux, if_neg hc]
    exact ih hr (i + 1) acc

theorem lastDotAux_last (l : List Char) :
    ∀ (j i : ℕ) (acc : ℤ), l.get? j = some '.' → '.' ∉ l.drop (j + 1) →
      lastDotAux l i acc = (i : ℤ) + (j : ℤ) := by
  induction l with
  | nil => intro j i acc h _; simp [List.get?] at h
  | cons c rest ih =>
    intro j i acc h hnd
    cases j with
    | zero =>
      have hc : c = '.' := by simpa [List.get?] using h
      simp only [lastDotAux, if_pos hc]
      have : '.' ∉ rest := by simpa using hnd
      rw [lastDotAux_no_dot rest this]
      simp
    | succ j =>
      have h' : rest.get? j = some '.' := by simpa [List.get?] using h
      have hnd' : '.' ∉ rest.drop (j + 1) := by simpa using hnd
      simp only [lastDotAux]
      rw [ih j (i + 1) _ h' hnd']
      push_cast
      ring

theorem lastDotAux_lt (l : List Char) :
    ∀ (k i : ℕ) (acc : ℤ), '.' ∉ l.drop k → acc < (i : ℤ) + (k : ℤ) →
      lastDotAux l i acc < (i : ℤ) + (k : ℤ) := by
  induction l with
  | nil => intro k i acc _ hacc; exact hacc
  | cons c rest ih =>
    intro k i acc hnd hacc
    cases k with
    | zero =>
      rw [lastDotAux_no_dot (c :: rest) (by simpa using hnd)]
      exact hacc
    | succ k =>
      have hnd' : '.' ∉ rest.drop k := by simpa using hnd
      simp only [lastDotAux]
      push_cast at hacc
      have hacc' : (if c = '.' then (i : ℤ) else acc) < ((i + 1 : ℕ) : ℤ) + (k : ℤ) := by
        split
        · push_cast; omega
        · push_cast; omega
      have hres := ih k (i + 1) (if c = '.' then (i : ℤ) else acc) hnd' hacc'
      push_cast at hres ⊢
      omega

theorem lastIndexOfDot_eq (l : List Char) (j : ℕ) (h1 : l.get? j = some '.')
    (h2 : '.' ∉ l.drop (j + 1)) : lastIndexOfDot l = (j : ℤ) := by
  have := lastDotAux_last l j 0 (-1) h1 h2
  simpa [lastIndexOfDot] using this

theorem lastIndexOfDot_lt (l : List Char) (k : ℕ) (h : '.' ∉ l.drop k) :
    lastIndexOfDot l < (k : ℤ) := by
  have := lastDotAux_lt l k 0 (-1) h (by push_cast; omega)
  simpa [lastIndexOfDot] using this

set_option maxRecDepth 4000

/-- Claim C5: `createExcerpt` takes the first 200 characters; when the last
period of that slice sits at an index greater than 100 it truncates to and
including that period, and otherwise (including for texts shorter than 200
characters) it returns the slice with an ellipsis appended; in particular
the excerpt of 300 'A's is exactly 200 'A's followed by the ellipsis. -/
theorem c5_createExcerpt_spec :
    (∀ (text : List Char) (j : ℕ), (text.take 200).get? j = some '.' →
        '.' ∉ (text.take 200).drop (j + 1) → 100 < j →
        createExcerpt text = (text.take 200).take (j + 1)) ∧
    (∀ text : List Char, '.' ∉ (text.take 200).drop 101 →
        createExcerpt text = text.take 200 ++ "...".toList) ∧
    createExcerpt (List.replicate 300 'A') = List.replicate 200 'A' ++ "...".toList := by
  refine ⟨?_, ?_, ?_⟩
  · intro text j h1 h2 hj
    have hd : lastIndexOfDot (text.take 200) = (j : ℤ) := lastIndexOfDot_eq _ j h1 h2
    have hcond : (100 : ℤ) < lastIndexOfDot (text.take 200) := by
      rw [hd]; exact_mod_cast hj
    simp only [createExcerpt]
    rw [if_pos hcond, hd]
    norm_num
  · intro text h
    have hd : lastIndexOfDot (text.take 200) < (101 : ℤ) := lastIndexOfDot_lt _ 101 h
    have hcond : ¬ (100 : ℤ) < lastIndexOfDot (text.take 200) := by omega
    simp only [createExcerpt]
    rw [if_neg hcond]
  · with_unfolding_all decide

/-- Claim C5 witness: the first part of the specification applied to a
concrete text with its last period at index 120. -/
theorem c5_createExcerpt_witness :
    createExcerpt (List.replicate 120 'a' ++ ['.']) = List.replicate 120 'a' ++ ['.'] := by
  have h := c5_createExcerpt_spec.1 (List.replicate 120 'a' ++ ['.']) 120
    (by with_unfolding_all decide) (by with_unfolding_all decide) (by omega)
  rw [h]
  with_unfolding_all decide

/-! ## Claim C6 -/

/-- Claim C6: the POV decision is first_person exactly when the
first-person whole-word count exceeds twice the third-person count,
third_person exactly when the third-person count exceeds the first-person
count and the first condition fails, and unknown otherwise; the tense
decision is present exactly when the present-indicator count exceeds 1.5
times the past-indicator count, past exactly when the past count exceeds
the present count and the first condition fails, and unknown otherwise. -/
theorem c6_narrative_decision (text : List Char) :
    ((analyzeNarrativeCharacteristics text).pov = "first_person" ↔
      2 * countWholeWords thirdPersonWords text < countWholeWords firstPersonWords text) ∧
    ((analyzeNarrativeCharacteristics text).pov = "third_person" ↔
      (¬ 2 * countWholeWords thirdPersonWords text < countWholeWords firstPersonWords text ∧
        countWholeWords firstPersonWords text < countWholeWords thirdPersonWords text)) ∧
    ((analyzeNarrativeCharacteristics text).pov = "unknown" ↔
      (¬ 2 * countWholeWords thirdPersonWords text < countWholeWords firstPersonWords text ∧
        ¬ countWholeWords firstPersonWords text < countWholeWords thirdPersonWords text)) ∧
    ((analyzeNarrativeCharacteristics text).tense = "present" ↔
      1.5 * (countWholeWords pastTenseWords text : ℚ) < (countWholeWords presentTenseWords text : ℚ)) ∧
    ((analyzeNarrativeCharacteristics text).tense = "past" ↔
      (¬ 1.5 * (countWholeWords pastTenseWords text : ℚ) < (countWholeWords presentTenseWords text : ℚ) ∧
        countWholeWords presentTenseWords text < countWholeWords pastTenseWords text)) ∧
    ((analyzeNarrativeCharacteristics text).tense = "unknown" ↔
      (¬ 1.5 * (countWholeWords pastTenseWords text : ℚ) < (countWholeWords presentTenseWords text : ℚ) ∧
        ¬ countWholeWords presentTenseWords text < countWholeWords pastTenseWords text)) := by
  have hpov : (analyzeNarrativeCharacteristics text).pov =
      (if countWholeWords thirdPersonWords text * 2 < countWholeWords firstPersonWords text
        then "first_person"
        else if countWholeWords firstPersonWords text < countWholeWords thirdPersonWords text
        then "third_person" else "unknown") := rfl
  have htense : (analyzeNarrativeCharacteristics text).tense =
      (if (countWholeWords pastTenseWords text : ℚ) * 1.5 <
          (countWholeWords presentTenseWords text : ℚ)
        then "present"
        else if countWholeWords presentTenseWords text < countWholeWords pastTenseWords text
        then "past" else "unknown") := rfl
  rw [hpov, htense, mul_comm (countWholeWords pastTenseWords text : ℚ) 1.5]
  have e1 : ("first_person" : String) ≠ "third_person" := by decide
  have e2 : ("first_person" : String) ≠ "unknown" := by decide
  have e3 : ("third_person" : String) ≠ "first_person" := by decide
  have e4 : ("third_person" : String) ≠ "unknown" := by decide
  have e5 : ("unknown" : String) ≠ "first_person" := by decide
  have e6 : ("unknown" : String) ≠ "third_person" := by decide
  have e7 : ("present" : String) ≠ "past" := by decide
  have e8 : ("present" : String) ≠ "unknown" := by decide
  have e9 : ("past" : String) ≠ "present" := by decide
  have e10 : ("past" : String) ≠ "unknown" := by decide
  have e11 : ("unknown" : String) ≠ "present" := by decide
  have e12 : ("unknown" : String) ≠ "past" := by decide
  split_ifs with h1 h2 h3 h4 <;>
    simp_all <;> omega

/-! ## Claim C7 -/

/-- Claim C7: the tone extractor returns exactly one emotional-tone tag —
optimistic exactly when the positive-lexicon count exceeds twice the
negative count, pessimistic exactly when the negative count exceeds twice
the positive count (and the first condition fails), neutral otherwise —
and formality level "formal" exactly when the formal-word count divided by
the total word count exceeds 0.01, else "casual"; in particular the garden
["optimistic"]. -/
theorem c7_tone_spec :
    (∀ text : List Char,
      ((analyzeTone text).emotional_tone = ["optimistic"] ↔
        2 * ((jsWords text).filter (fun w => decide (w ∈ negativeWords))).length <
          ((jsWords text).filter (fun w => decide (w ∈ positiveWords))).length) ∧
      ((analyzeTone text).emotional_tone = ["pessimistic"] ↔
        (¬ 2 * ((jsWords text).filter (fun w => decide (w ∈ negativeWords))).length <
            ((jsWords text).filter (fun w => decide (w ∈ positiveWords))).length ∧
          2 * ((jsWords text).filter (fun w => decide (w ∈ positiveWords))).length <
            ((jsWords text).filter (fun w => decide (w ∈ negativeWords))).length)) ∧
      ((analyzeTone text).emotional_tone = ["neutral"] ↔
        (¬ 2 * ((jsWords text).filter (fun w => decide (w ∈ negativeWords))).length <
            ((jsWords text).filter (fun w => decide (w ∈ positiveWords))).length ∧
          ¬ 2 * ((jsWords text).filter (fun w => decide (w ∈ positiveWords))).length <
            ((jsWords text).filter (fun w => decide (w ∈ negativeWords))).length)) ∧
      (analyzeTone text).emotional_tone.length = 1 ∧
      ((analyzeTone text).formality_level = "formal" ↔
        (1 / 100 : ℚ) <
          (((jsWords text).filter (fun w => decide (w ∈ formalWords))).length : ℚ) /
            ((jsWords text).length : ℚ)) ∧
      ((analyzeTone text).formality_level = "formal" ∨
        (analyzeTone text).formality_level = "casual")) ∧
    (analyzeNarrativeCharacteristics gardenText).pov = "first_person" ∧
    (analyzeNarrativeCharacteristics gardenText).tense = "present" ∧
    (analyzeTone gardenText).emotional_tone = ["optimistic"] := by
  refine ⟨?_, ?_, ?_, ?_⟩
  · intro text
    have htone : (analyzeTone text).emotional_tone =
        (if ((jsWords text).filter (fun w => decide (w ∈ negativeWords))).length * 2 <
            ((jsWords text).filter (fun w => decide (w ∈ positiveWords))).length
          then ["optimistic"]
          else if ((jsWords text).filter (fun w => decide (w ∈ positiveWords))).length * 2 <
              ((jsWords text).filter (fun w => decide (w ∈ negativeWords))).length
          then ["pessimistic"] else ["neutral"]) := rfl
    have hform : (analyzeTone text).formality_level =
        (if jsGt (jsDiv
            (((jsWords text).filter (fun w => decide (w ∈ formalWords))).length : ℚ)
            (((jsWords text).length : ℕ) : ℚ)) 0.01
          then "formal" else "casual") := rfl
    have hfl : ((jsWords text).filter (fun w => decide (w ∈ formalWords))).length ≤
        (jsWords text).length := List.length_filter_le _ _
    have e1 : (["optimistic"] : List String) ≠ ["pessimistic"] := by decide
    have e2 : (["optimistic"] : List String) ≠ ["neutral"] := by decide
    have e3 : (["pessimistic"] : List String) ≠ ["optimistic"] := by decide
    have e4 : (["pessimistic"] : List String) ≠ ["neutral"] := by decide
    have e5 : (["neutral"] : List String) ≠ ["optimistic"] := by decide
    have e6 : (["neutral"] : List String) ≠ ["pessimistic"] := by decide
    have hformQ : ((analyzeTone text).formality_level = "formal" ↔
        (1 / 100 : ℚ) <
          (((jsWords text).filter (fun w => decide (w ∈ formalWords))).length : ℚ) /
            ((jsWords text).length : ℚ)) := by
      rw [hform]
      have h001 : (0.01 : ℚ) = 1 / 100 := by norm_num
      by_cases hlen : (jsWords text).length = 0
      · have hf0 : ((jsWords text).filter (fun w => decide (w ∈ formalWords))).length = 0 := by
          omega
        rw [hlen, hf0]
        have hc : jsGt (jsDiv ((0 : ℕ) : ℚ) ((0 : ℕ) : ℚ)) 0.01 = false := by
          with_unfolding_all decide
        rw [if_neg (by rw [hc]; exact Bool.false_ne_true)]
        constructor
        · intro h; exact absurd h (by decide)
        · intro h; exact absurd h (by norm_num)
      · have hlenQ : (((jsWords text).length : ℕ) : ℚ) ≠ 0 := by
          exact_mod_cast hlen
        simp only [jsDiv, hlenQ, if_false]
        simp only [jsGt]
        by_cases hq : (1 / 100 : ℚ) <
            (((jsWords text).filter (fun w => decide (w ∈ formalWords))).length : ℚ) /
              ((jsWords text).length : ℚ)
        · rw [if_pos (decide_eq_true (by rw [h001]; exact hq))]
          simpa using hq
        · rw [if_neg (by simpa [h001] using hq)]
          constructor
          · intro h; exact absurd h (by decide)
          · intro h; exact absurd h hq
    refine ⟨?_, ?_, ?_, ?_, hformQ, ?_⟩
    · rw [htone]; split_ifs with h1 h2 <;> simp_all <;> omega
    · rw [htone]; split_ifs with h1 h2 <;> simp_all <;> omega
    · rw [htone]; split_ifs with h1 h2 <;> simp_all <;> omega
    · rw [htone]; split_ifs <;> rfl
    · rw [hform]; split_ifs <;> simp
  · with_unfolding_all decide
  · with_unfolding_all decide
  · with_unfolding_all decide

/-! ## Claim C8 -/

/-- Claim C8: each section of the style-guidance formatter is emitted only
when its input sub-object is present (and, for the authors list and the
user comments, non-empty); an absent sub-object contributes the empty
string, and the all-absent input yields just the fixed header with no
section headers at all. -/
theorem c8_sections_omitted :
    (∀ p : StyleParameters, p.sentence = none → sectionSentence p = "") ∧
    (∀ p : StyleParameters, p.vocabulary = none → sectionVocabulary p = "") ∧
    (∀ p : StyleParameters, p.narrative = none → sectionNarrative p = "") ∧
    (∀ p : StyleParameters, p.tone = none → sectionTone p = "") ∧
    (∀ p : StyleParameters, p.devices = none → sectionDevices p = "") ∧
    (∀ p : StyleParameters, p.comparable_authors = none ∨ p.comparable_authors = some [] →
      sectionAuthors p = "") ∧
    (∀ p : StyleParameters, p.user_comments = none ∨ p.user_comments = some "" →
      sectionNotes p = "") ∧
    formatStyleGuidance emptyStyleParameters = "# Style Guidance\n\n" := by
  refine ⟨?_, ?_, ?_, ?_, ?_, ?_, ?_, ?_⟩
  · intro p h; simp [sectionSentence, h]
  · intro p h; simp [sectionVocabulary, h]
  · intro p h; simp [sectionNarrative, h]
  · intro p h; simp [sectionTone, h]
  · intro p h; simp [sectionDevices, h]
  · intro p h
    rcases h with h | h
    · simp [sectionAuthors, h]
    · simp [sectionAuthors, h]
  · intro p h
    rcases h with h | h
    · simp [sectionNotes, strTruthy, h]
    · simp [sectionNotes, strTruthy, h]
      rfl
  · with_unfolding_all decide

/-- Claim C8 witness: the omission statements applied to the all-absent
input. -/
theorem c8_sections_omitted_witness :
    sectionSentence emptyStyleParameters = "" ∧ sectionAuthors emptyStyleParameters = "" ∧
    sectionNotes emptyStyleParameters = "" :=
  ⟨c8_sections_omitted.1 emptyStyleParameters rfl,
   c8_sections_omitted.2.2.2.2.2.1 emptyStyleParameters (Or.inl rfl),
   c8_sections_omitted.2.2.2.2.2.2.1 emptyStyleParameters (Or.inl rfl)⟩

/-! ## Claim C9 -/

/-- Claim C9: in the Narrative Approach section, a composite POV other
than first_person or second_person (including "unknown") is rendered as
"Third person", and a tense other than present (including "unknown") is
rendered as "Past tense"; the section is exactly the header plus those
rendered lines. -/
theorem c9_undetermined_rendered_as_determined :
    (∀ s : String, s ≠ "first_person" → s ≠ "second_person" → povLabel s = "Third person") ∧
    (∀ s : String, s ≠ "present" → tenseLabel s = "Past tense") ∧
    (∀ (p : StyleParameters) (nv : FmtNarrative), p.narrative = some nv →
      sectionNarrative p =
        "## Narrative Approach\n"
          ++ "- Point of view: " ++ povLabel nv.pov ++ "\n"
          ++ "- Tense: " ++ tenseLabel nv.tense ++ "\n"
          ++ "- Description vs. action balance: "
          ++ (if nv.description_heavy then "Favor rich description"
              else "Favor action and plot movement")
          ++ "\n\n") := by
  refine ⟨?_, ?_, ?_⟩
  · intro s h1 h2; simp [povLabel, h1, h2]
  · intro s h; simp [tenseLabel, h]
  · intro p nv h; simp [sectionNarrative, h]

/-- Claim C9 witness: the undetermined value "unknown" is displayed as
"Third person" and "Past tense". -/
theorem c9_undetermined_rendered_witness :
    povLabel "unknown" = "Third person" ∧ tenseLabel "unknown" = "Past tense" :=
  ⟨c9_undetermined_rendered_as_determined.1 "unknown" (by decide) (by decide),
   c9_undetermined_rendered_as_determined.2.1 "unknown" (by decide)⟩

/-! ## Claim C10 -/

/-- Claim C10: a missing (or falsy) stored action-to-reflection ratio
contributes `1` to the mean while every other scalar getter contributes
`0` on a fully absent row, and a non-empty sequence of rows all lacking
the ratio aggregates to action ratio `1` with `description_heavy` false. -/
theorem c10_action_ratio_default :
    (∀ a : Analysis,
      a.narrative_characteristics.bind (fun m => m.action_to_reflection_ratio) = none →
      getActionRatio a = 1) ∧
    (∀ a : Analysis,
      a.narrative_characteristics.bind (fun m => m.action_to_reflection_ratio) = some 0 →
      getActionRatio a = 1) ∧
    (getAvgLength emptyAnalysis = 0 ∧ getDistShort emptyAnalysis = 0 ∧
      getDistMedium emptyAnalysis = 0 ∧ getDistLong emptyAnalysis = 0 ∧
      getComplexity emptyAnalysis = 0 ∧ getQuestionFrequency emptyAnalysis = 0 ∧
      getLexicalDiversity emptyAnalysis = 0 ∧ getFormalityScore emptyAnalysis = 0 ∧
      getMetaphor emptyAnalysis = 0 ∧ getSimile emptyAnalysis = 0 ∧
      getAlliteration emptyAnalysis = 0 ∧ getRepetition emptyAnalysis = 0) ∧
    (∀ as : List Analysis, as ≠ [] →
      (∀ a ∈ as,
        a.narrative_characteristics.bind (fun m => m.action_to_reflection_ratio) = none) →
      ∃ c, combineMetrics as = some c ∧
        c.narrative.action_ratio = 1 ∧ c.narrative.description_heavy = false) := by
  have hmiss : ∀ a : Analysis,
      a.narrative_characteristics.bind (fun m => m.action_to_reflection_ratio) = none →
      getActionRatio a = 1 := by
    intro a h; simp [getActionRatio, h, jsOr]
  refine ⟨hmiss, ?_, ?_, ?_⟩
  · intro a h; simp [getActionRatio, h, jsOr]
  · refine ⟨rfl, rfl, rfl, rfl, rfl, rfl, rfl, rfl, rfl, rfl, rfl, rfl⟩
  · intro as hne hall
    have hmap : as.map getActionRatio = List.replicate as.length 1 := by
      rw [List.eq_replicate_iff]
      refine ⟨by simp, ?_⟩
      intro b hb
      rcases List.mem_map.1 hb with ⟨a, ha, rfl⟩
      exact hmiss a (hall a ha)
    have hlen : ((as.length : ℕ) : ℚ) ≠ 0 := by
      have : as.length ≠ 0 := fun h => hne (List.length_eq_zero.1 h)
      exact_mod_cast this
    have hmean : meanOver getActionRatio as = 1 := by
      rw [meanOver, hmap, List.sum_replicate]
      simp only [nsmul_eq_mul, mul_one]
      exact div_self hlen
    refine ⟨combineCore as, ?_, ?_, ?_⟩
    · simp [combineMetrics, List.isEmpty_iff, hne]
    · simp [combineCore, hmean]
    · simp [combineCore, hmean]

/-- Claim C10 witness: the default applied to the all-absent row and to
the singleton sequence containing it. -/
theorem c10_action_ratio_default_witness :
    getActionRatio emptyAnalysis = 1 ∧
    ∃ c, combineMetrics [emptyAnalysis] = some c ∧
      c.narrative.action_ratio = 1 ∧ c.narrative.description_heavy = false :=
  ⟨c10_action_ratio_default.1 emptyAnalysis rfl,
   c10_action_ratio_default.2.2.2 [emptyAnalysis] (by simp)
     (by intro a ha; simp at ha; rw [ha]; rfl)⟩

/-! ## Claim C4 -/

theorem pickBest_le (b : String × ℕ) (l : List (String × ℕ)) :
    b.2 ≤ (pickBest b l).2 := by
  induction l generalizing b with
  | nil => exact le_refl _
  | cons p rest ih =>
    simp only [pickBest]
    refine le_trans ?_ (ih _)
    split
    · omega
    · exact le_refl _

theorem pickBest_mem_le (b : String × ℕ) (l : List (String × ℕ)) :
    ∀ q ∈ l, q.2 ≤ (pickBest b l).2 := by
  induction l generalizing b with
  | nil => intro q hq; simp at hq
  | cons p rest ih =>
    intro q hq
    simp only [pickBest]
    rcases List.mem_cons.1 hq with rfl | hq'
    · refine le_trans ?_ (pickBest_le _ rest)
      split <;> omega
    · exact ih _ q hq'

theorem pickBest_eq_or (b : String × ℕ) (l : List (String × ℕ)) :
    pickBest b l = b ∨ (pickBest b l ∈ l ∧ b.2 < (pickBest b l).2) := by
  induction l generalizing b with
  | nil => left; rfl
  | cons p rest ih =>
    simp only [pickBest]
    by_cases h : b.2 < p.2
    · rw [if_pos h]
      rcases ih p with heq | ⟨hmem, hlt⟩
      · right
        refine ⟨?_, ?_⟩
        · rw [heq]; exact List.mem_cons_self _ _
        · rw [heq]; exact h
      · right; exact ⟨List.mem_cons_of_mem _ hmem, lt_trans h hlt⟩
    · rw [if_neg h]
      rcases ih b with heq | ⟨hmem, hlt⟩
      · left; exact heq
      · right; exact ⟨List.mem_cons_of_mem _ hmem, hlt⟩

theorem pickBest_decomp (b : String × ℕ) (l : List (String × ℕ)) (p : String × ℕ)
    (hp : pickBest b l = p) (hlt : b.2 < p.2) :
    ∃ l₁ l₂, l = l₁ ++ p :: l₂ ∧ (∀ q ∈ l₁, q.2 < p.2) ∧ (∀ q ∈ l₂, q.2 ≤ p.2) := by
  induction l generalizing b with
  | nil =>
    rw [pickBest] at hp
    subst hp
    exact absurd hlt (lt_irrefl _)
  | cons p₀ rest ih =>
    rw [pickBest] at hp
    by_cases h : b.2 < p₀.2
    · rw [if_pos h] at hp
      rcases pickBest_eq_or p₀ rest with heq | ⟨hmem, hlt'⟩
      · have hpp : p = p₀ := by rw [← hp, heq]
        subst hpp
        refine ⟨[], rest, rfl, ?_, ?_⟩
        · intro q hq; simp at hq
        · intro q hq
          have := pickBest_mem_le p rest q hq
          rw [hp] at this
          exact this
      · rw [hp] at hmem hlt'
        obtain ⟨l₁, l₂, hsplit, hl₁, hl₂⟩ := ih p₀ hp hlt'
        refine ⟨p₀ :: l₁, l₂, by rw [hsplit, List.cons_append], ?_, hl₂⟩
        intro q hq
        rcases List.mem_cons.1 hq with rfl | hq'
        · exact hlt'
        · exact hl₁ q hq'
    · rw [if_neg h] at hp
      obtain ⟨l₁, l₂, hsplit, hl₁, hl₂⟩ := ih b hp hlt
      refine ⟨p₀ :: l₁, l₂, by rw [hsplit, List.cons_append], ?_, hl₂⟩
      intro q hq
      rcases List.mem_cons.1 hq with rfl | hq'
      · omega
      · exact hl₁ q hq'

theorem idxOf_append_of_mem (k : String) (l ws : List String) (h : k ∈ l) :
    idxOf k (l ++ ws) = idxOf k l := by
  induction l with
  | nil => simp at h
  | cons w rest ih =>
    simp only [List.cons_append, idxOf, List.append_eq]
    by_cases hw : w = k
    · rw [if_pos hw, if_pos hw]
    · rw [if_neg hw, if_neg hw]
      have hr : k ∈ rest := by
        rcases List.mem_cons.1 h with rfl | h'
        · exact absurd rfl hw
        · exact h'
      rw [ih hr]

theorem idxOf_append_of_not_mem (k : String) (l ws : List String) (h : k ∉ l) :
    idxOf k (l ++ ws) = l.length + idxOf k ws := by
  induction l with
  | nil => simp [idxOf]
  | cons w rest ih =>
    have hw : ¬ w = k := fun e => h (by rw [e]; exact List.mem_cons_self _ _)
    have hr : k ∉ rest := fun e => h (List.mem_cons_of_mem _ e)
    simp only [List.cons_append, idxOf, if_neg hw, List.length_cons, List.append_eq]
    rw [ih hr]
    omega

theorem idxOf_lt_length (k : String) (l : List String) (h : k ∈ l) :
    idxOf k l < l.length := by
  induction l with
  | nil => simp at h
  | cons w rest ih =>
    simp only [idxOf, List.length_cons]
    by_cases hw : w = k
    · rw [if_pos hw]; omega
    · rw [if_neg hw]
      have hr : k ∈ rest := by
        rcases List.mem_cons.1 h with rfl | h'
        · exact absurd rfl hw
        · exact h'
      have := ih hr
      omega

theorem tally_invariant (vs : List String) :
    (∀ p ∈ tallyList vs, p.2 = vs.count p.1 ∧ p.1 ∈ vs) ∧
    (∀ v ∈ vs, ∃ p ∈ tallyList vs, p.1 = v) ∧
    ((tallyList vs).map Prod.fst).Pairwise (fun a b => idxOf a vs < idxOf b vs) := by
  induction vs using List.reverseRecOn with
  | nil =>
    refine ⟨?_, ?_, ?_⟩ <;> simp [tallyList]
  | append_singleton l v ih =>
    obtain ⟨ih1, ih2, ih3⟩ := ih
    have htl : tallyList (l ++ [v]) = insertTally (tallyList l) v := by
      simp [tallyList, List.foldl_append]
    by_cases hv : (tallyList l).any (fun p => decide (p.1 = v))
    · -- the key is already present: every entry with that key is bumped
      have hvl : v ∈ l := by
        rw [List.any_eq_true] at hv
        obtain ⟨p, hp, hpv⟩ := hv
        have := (ih1 p hp).2
        rw [of_decide_eq_true hpv] at this
        exact this
      have hins : insertTally (tallyList l) v =
          (tallyList l).map (fun p => if p.1 = v then (p.1, p.2 + 1) else p) := by
        simp only [insertTally]
        rw [if_pos hv]
      have hkeys : (tallyList (l ++ [v])).map Prod.fst = (tallyList l).map Prod.fst := by
        rw [htl, hins, List.map_map]
        apply List.map_congr_left
        intro p _
        by_cases h : p.1 = v <;> simp [h]
      refine ⟨?_, ?_, ?_⟩
      · intro p hp
        rw [htl, hins] at hp
        rcases List.mem_map.1 hp with ⟨q, hq, rfl⟩
        obtain ⟨hqc, hqm⟩ := ih1 q hq
        by_cases h : q.1 = v
        · rw [if_pos h]
          refine ⟨?_, List.mem_append_left _ hqm⟩
          show q.2 + 1 = List.count q.1 (l ++ [v])
          rw [h] at hqc ⊢
          rw [List.count_append]
          have hcv : List.count v [v] = 1 := by simp
          omega
        · rw [if_neg h]
          refine ⟨?_, List.mem_append_left _ hqm⟩
          show q.2 = List.count q.1 (l ++ [v])
          rw [List.count_append]
          have hc0 : List.count q.1 [v] = 0 := by
            simp only [List.count_cons, List.count_nil, beq_iff_eq]
            rw [if_neg (fun e => h e.symm)]
          omega
      · intro w hw
        rcases List.mem_append.1 hw with hwl | hwv
        · obtain ⟨p, hp, hp1⟩ := ih2 w hwl
          refine ⟨if p.1 = v then (p.1, p.2 + 1) else p, ?_, ?_⟩
          · rw [htl, hins]
            exact List.mem_map_of_mem _ hp
          · by_cases h : p.1 = v
            · rw [if_pos h]; exact hp1
            · rw [if_neg h]; exact hp1
        · have hwv' : w = v := by simpa using hwv
          subst hwv'
          obtain ⟨p, hp, hp1⟩ := ih2 w hvl
          refine ⟨if p.1 = w then (p.1, p.2 + 1) else p, ?_, ?_⟩
          · rw [htl, hins]
            exact List.mem_map_of_mem _ hp
          · by_cases h : p.1 = w
            · rw [if_pos h]; exact hp1
            · rw [if_neg h]; exact hp1
      · rw [hkeys]
        refine List.Pairwise.imp_of_mem ?_ ih3
        intro a b ha hb hab
        rcases List.mem_map.1 ha with ⟨p, hp, rfl⟩
        rcases List.mem_map.1 hb with ⟨q, hq, rfl⟩
        rw [idxOf_append_of_mem _ _ _ (ih1 p hp).2, idxOf_append_of_mem _ _ _ (ih1 q hq).2]
        exact hab
    · -- the key is new: a fresh entry with count 1 is appended
      have hvl : v ∉ l := by
        intro hmem
        obtain ⟨p, hp, hp1⟩ := ih2 v hmem
        rw [List.any_eq_true] at hv
        exact hv ⟨p, hp, decide_eq_true hp1⟩
      have hins : insertTally (tallyList l) v = tallyList l ++ [(v, 1)] := by
        simp only [insertTally]
        rw [if_neg hv]
      have hkeys : (tallyList (l ++ [v])).map Prod.fst = (tallyList l).map Prod.fst ++ [v] := by
        rw [htl, hins]
        simp
      refine ⟨?_, ?_, ?_⟩
      · intro p hp
        rw [htl, hins] at hp
        rcases List.mem_append.1 hp with hpt | hpv
        · obtain ⟨hqc, hqm⟩ := ih1 p hpt
          refine ⟨?_, List.mem_append_left _ hqm⟩
          rw [List.count_append]
          have hne : ¬ p.1 = v := fun e => hvl (e ▸ hqm)
          have hc0 : List.count p.1 [v] = 0 := by
            simp only [List.count_cons, List.count_nil, beq_iff_eq]
            rw [if_neg (fun e => hne e.symm)]
          omega
        · have hpv' : p = (v, 1) := by simpa using hpv
          subst hpv'
          refine ⟨?_, List.mem_append_right _ (by simp)⟩
          show (1 : ℕ) = List.count v (l ++ [v])
          rw [List.count_append]
          have h0 : List.count v l = 0 := List.count_eq_zero.2 hvl
          have hcv : List.count v [v] = 1 := by simp
          omega
      · intro w hw
        rcases List.mem_append.1 hw with hwl | hwv
        · obtain ⟨p, hp, hp1⟩ := ih2 w hwl
          refine ⟨p, ?_, hp1⟩
          rw [htl, hins]
          exact List.mem_append_left _ hp
        · have hwv' : w = v := by simpa using hwv
          subst hwv'
          refine ⟨(w, 1), ?_, rfl⟩
          rw [htl, hins]
          exact List.mem_append_right _ (by simp)
      · rw [hkeys]
        rw [List.pairwise_append]
        refine ⟨?_, ?_, ?_⟩
        · refine List.Pairwise.imp_of_mem ?_ ih3
          intro a b ha hb hab
          rcases List.mem_map.1 ha with ⟨p, hp, rfl⟩
          rcases List.mem_map.1 hb with ⟨q, hq, rfl⟩
          rw [idxOf_append_of_mem _ _ _ (ih1 p hp).2, idxOf_append_of_mem _ _ _ (ih1 q hq).2]
          exact hab
        · simp
        · intro a ha b hb
          have hbv : b = v := by simpa using hb
          subst hbv
          rcases List.mem_map.1 ha with ⟨p, hp, rfl⟩
          have hma : p.1 ∈ l := (ih1 p hp).2
          rw [idxOf_append_of_mem _ _ _ hma, idxOf_append_of_not_mem _ _ _ hvl]
          have h1 : idxOf p.1 l < l.length := idxOf_lt_length _ _ hma
          have h2 : idxOf b [b] = 0 := by simp [idxOf]
          omega

theorem dominant_modeSpec (dflt : String) (vs : List String) :
    modeSpec dflt vs (dominantOf dflt (tallyList vs)) := by
  obtain ⟨ih1, ih2, ih3⟩ := tally_invariant vs
  by_cases hvs : vs = []
  · subst hvs
    left
    exact ⟨rfl, rfl⟩
  · right
    obtain ⟨v, hv⟩ := List.exists_mem_of_ne_nil vs hvs
    obtain ⟨pv, hpv, hpv1⟩ := ih2 v hv
    have hpos : ∀ q ∈ tallyList vs, 0 < q.2 := by
      intro q hq
      rw [(ih1 q hq).1]
      exact List.count_pos_iff.2 (ih1 q hq).2
    rcases pickBest_eq_or (dflt, 0) (tallyList vs) with heq | ⟨hmem, hlt⟩
    · exfalso
      have h1 := pickBest_mem_le (dflt, 0) (tallyList vs) pv hpv
      rw [heq] at h1
      have h2 := hpos pv hpv
      omega
    · have hPcount := (ih1 _ hmem).1
      have hPmem := (ih1 _ hmem).2
      have hdom : dominantOf dflt (tallyList vs) = (pickBest (dflt, 0) (tallyList vs)).1 := rfl
      rw [hdom]
      refine ⟨hPmem, ?_, ?_⟩
      · intro w hw
        obtain ⟨pw, hpw, hpw1⟩ := ih2 w hw
        have h1 := pickBest_mem_le (dflt, 0) (tallyList vs) pw hpw
        have h2 := (ih1 pw hpw).1
        rw [hpw1] at h2
        omega
      · intro w hw hcount
        obtain ⟨pw, hpw, hpw1⟩ := ih2 w hw
        have hpwc := (ih1 pw hpw).1
        rw [hpw1] at hpwc
        obtain ⟨l₁, l₂, hsplit, hl₁, hl₂⟩ :=
          pickBest_decomp (dflt, 0) (tallyList vs) _ rfl hlt
        rw [hsplit] at hpw
        rcases List.mem_append.1 hpw with hin₁ | hin₂
        · exfalso
          have := hl₁ pw hin₁
          omega
        · rcases List.mem_cons.1 hin₂ with heqP | hin₂'
          · rw [← hpw1, heqP]
          · have hmap := congrArg (List.map Prod.fst) hsplit
            rw [List.map_append, List.map_cons] at hmap
            rw [hmap] at ih3
            have hpair := (List.pairwise_append.1 ih3).2.1
            have hrel := List.rel_of_pairwise_cons hpair
              (List.mem_map_of_mem Prod.fst hin₂')
            rw [hpw1] at hrel
            exact le_of_lt hrel

/-- Claim C3: for every non-empty sequence of bundles the aggregator
computes POV, tense and formality level as the mode of the supplied
values — most frequent value, ties broken in favour of the value first
encountered in sequence order, defaulting to "unknown" / "unknown" /
"neutral" when no bundle supplies the field — and in particular two
first_person bundles against one third_person bundle aggregate to
first_person. -/
theorem c3_mode_aggregation :
    (∀ as : List Analysis, as ≠ [] →
      ∃ c, combineMetrics as = some c ∧
        modeSpec "unknown" (suppliedValues getPov as) c.narrative.pov ∧
        modeSpec "unknown" (suppliedValues getTense as) c.narrative.tense ∧
        modeSpec "neutral" (suppliedValues getFormalityLevel as) c.tone.formality) ∧
    (combineCore majorityExample).narrative.pov = "first_person" ∧
    combineMetrics majorityExample = some (combineCore majorityExample) := by
  refine ⟨?_, ?_, ?_⟩
  · intro as hne
    refine ⟨combineCore as, ?_, ?_, ?_, ?_⟩
    · simp only [combineMetrics, List.isEmpty_iff]
      rw [if_neg hne]
    · have h : (combineCore as).narrative.pov =
          dominantOf "unknown" (tallyList (suppliedValues getPov as)) := rfl
      rw [h]
      exact dominant_modeSpec _ _
    · have h : (combineCore as).narrative.tense =
          dominantOf "unknown" (tallyList (suppliedValues getTense as)) := rfl
      rw [h]
      exact dominant_modeSpec _ _
    · have h : (combineCore as).tone.formality =
          dominantOf "neutral" (tallyList (suppliedValues getFormalityLevel as)) := rfl
      rw [h]
      exact dominant_modeSpec _ _
  · with_unfolding_all decide
  · with_unfolding_all decide

/-- Claim C3 witness: the mode specification instantiated on the concrete
2-vs-1 majority example. -/
theorem c3_mode_aggregation_witness :
    ∃ c, combineMetrics majorityExample = some c ∧
      modeSpec "unknown" (suppliedValues getPov majorityExample) c.narrative.pov ∧
      modeSpec "unknown" (suppliedValues getTense majorityExample) c.narrative.tense ∧
      modeSpec "neutral" (suppliedValues getFormalityLevel majorityExample) c.tone.formality :=
  c3_mode_aggregation.1 majorityExample (by simp [majorityExample])

end StoryVerse
